import Mathlib

/-!
# Verification of `vite-plugin-cdp-mcp` core services

Shallow embedding of the repository's data model and operations:

* `CircularBuffer` / `BufferManager`  — `src/services/buffer-manager.ts`
* entity models (console entry, network request, runtime evaluation,
  browser target) — `src/models/*.ts`
* `CDPClient` (connection retry, expression evaluation, listener
  registration) — `src/services/cdp-client.ts`
* `MCPTools` (network event dispatch, runtime eval handler) —
  `src/services/mcp-tools.ts`

JavaScript arrays are modelled as `List (Option α)` (a slot holding
`none` models an `undefined` slot of `new Array(n)`), JavaScript numbers
that the code only ever uses as non-negative integers are modelled as
`Nat`, and fallible code returns `Except String`.
-/

namespace CdpMcp

/-! ## CircularBuffer (src/services/buffer-manager.ts, class CircularBuffer)

The TypeScript class keeps a backing array of length `capacity` whose
slots start out `undefined`, plus a cursor `nextIndex`.
-/

structure CircularBuffer (α : Type) where
  items : List (Option α)
  capacity : Nat
  nextIndex : Nat
deriving Repr

namespace CircularBuffer

/-- `new CircularBuffer(capacity)`: `items = new Array(capacity)`, `nextIndex = 0`. -/
def mkBuffer (capacity : Nat) : CircularBuffer α :=
  ⟨List.replicate capacity none, capacity, 0⟩

/-- `add(item)`: write at `nextIndex`, advance the cursor modulo `capacity`. -/
def add (b : CircularBuffer α) (item : α) : CircularBuffer α :=
  { b with
    items := b.items.set b.nextIndex (some item)
    nextIndex := (b.nextIndex + 1) % b.capacity }

/-- `getAll()`: walk one full circle starting at `nextIndex` (the oldest
slot), skipping `undefined` slots. -/
def getAll (b : CircularBuffer α) : List α :=
  (List.range b.capacity).filterMap fun i =>
    b.items.getD ((b.nextIndex + i) % b.capacity) none

/-- `size()`: number of defined slots. -/
def size (b : CircularBuffer α) : Nat :=
  (b.items.filter fun item => item.isSome).length

/-- `clear()`: fresh backing array, cursor reset. -/
def clear (b : CircularBuffer α) : CircularBuffer α :=
  { b with items := List.replicate b.capacity none, nextIndex := 0 }

/-- `getCapacity()`. -/
def getCapacity (b : CircularBuffer α) : Nat :=
  b.capacity

/-- The index scan of `replaceFirst`: find the first defined slot whose
item satisfies the predicate and overwrite it in place. -/
def replaceFirstList (p : α → Bool) (newItem : α) : List (Option α) → List (Option α) × Bool
  | [] => ([], false)
  | none :: rest =>
    let r := replaceFirstList p newItem rest
    (none :: r.1, r.2)
  | some item :: rest =>
    if p item then (some newItem :: rest, true)
    else
      let r := replaceFirstList p newItem rest
      (some item :: r.1, r.2)

/-- `replaceFirst(predicate, newItem)`: returns the updated buffer and
whether a replacement occurred. -/
def replaceFirst (b : CircularBuffer α) (p : α → Bool) (newItem : α) :
    CircularBuffer α × Bool :=
  let r := replaceFirstList p newItem b.items
  ({ b with items := r.1 }, r.2)

/-- Fold a sequence of `add` calls. -/
def addAll (b : CircularBuffer α) (xs : List α) : CircularBuffer α :=
  xs.foldl add b

/-- Abstract effect of `add` on the buffer's logical content
(oldest-to-newest): append, evicting the oldest item once full. -/
def rbAbs (N : Nat) (l : List α) (x : α) : List α :=
  if l.length < N then l ++ [x] else l.tail ++ [x]

/-- Representation invariant tying a buffer of capacity `N` to its
logical content `l` (oldest-to-newest): starting at `nextIndex` the
first `N - l.length` slots are vacant and the remaining slots hold `l`
in order. -/
structure Inv (N : Nat) (b : CircularBuffer α) (l : List α) : Prop where
  cap : b.capacity = N
  len : b.items.length = N
  idx : b.nextIndex < N
  llen : l.length ≤ N
  filled : ∀ i, i < l.length →
    b.items.getD ((b.nextIndex + ((N - l.length) + i)) % N) none = l.get? i
  vacant : ∀ i, i < N - l.length →
    b.items.getD ((b.nextIndex + i) % N) none = none

end CircularBuffer

/-! ## Entity models

`src/models/console-entry.ts`, `src/models/network-request.ts`,
`src/models/runtime-evaluation.ts`, `src/models/browser-target.ts`.
Zod schemas become Boolean validators; `parse` throwing a
`ValidationError` becomes `Except.error`; headers
(`Record<string,string>`) become association lists.
-/

/-- Models the WHATWG `new URL(...)` parser for the
`scheme://host[:port][/path]` URLs this codebase handles: yields hostname
and port (empty string when the URL has no explicit port); a string
without a `scheme://authority` shape fails to parse (the `URL`
constructor throws). -/
structure ParsedURL where
  hostname : String
  port : String
deriving DecidableEq, Repr

/-- Character-level prefix test (an executable stand-in for
`String.startsWith` on character lists). -/
def isPrefixList : List Char → List Char → Bool
  | [], _ => true
  | _ :: _, [] => false
  | a :: as, b :: bs => a == b && isPrefixList as bs

/-- Finds the first occurrence of `sep` in `cs`, returning the characters
before it and the characters after it. -/
def takeUntilSep (sep : List Char) : List Char → Option (List Char × List Char)
  | [] => none
  | c :: rest =>
    if isPrefixList sep (c :: rest) then some ([], (c :: rest).drop sep.length)
    else
      match takeUntilSep sep rest with
      | some r => some (c :: r.1, r.2)
      | none => none

def splitOnListAux (sep : List Char) : Nat → List Char → List (List Char)
  | 0, cs => [cs]
  | fuel + 1, cs =>
    match takeUntilSep sep cs with
    | none => [cs]
    | some r => r.1 :: splitOnListAux sep fuel r.2

/-- `String.split`-style splitting on a separator, on character lists
(each recursive step consumes at least `sep.length ≥ 1` characters, so
`cs.length` steps of fuel always suffice). -/
def splitOnChars (sep cs : List Char) : List (List Char) :=
  if sep.isEmpty then [cs] else splitOnListAux sep cs.length cs

def parseURL (s : String) : Option ParsedURL :=
  match splitOnChars [':', '/', '/'] s.data with
  | [scheme, rest] =>
    if scheme.isEmpty then none
    else
      match (splitOnChars ['/'] rest).head? with
      | some authority =>
        if authority.isEmpty then none
        else
          match splitOnChars [':'] authority with
          | [h] => some ⟨String.mk h, ""⟩
          | [h, p] => if h.isEmpty then none else some ⟨String.mk h, String.mk p⟩
          | _ => none
      | none => none
  | _ => none

/-! ### ConsoleEntry (src/models/console-entry.ts) -/

inductive ConsoleEntryState
  | Created
  | Buffered
  | Streamed
deriving DecidableEq, Repr

def ConsoleEntryState.str : ConsoleEntryState → String
  | .Created => "Created"
  | .Buffered => "Buffered"
  | .Streamed => "Streamed"

structure StatefulConsoleEntry where
  level : String
  timestamp : Nat
  message : String
  source : String
  state : ConsoleEntryState
deriving DecidableEq, Repr

/-- A console entry as returned to clients (the `state` tag stripped). -/
structure ConsoleEntry where
  level : String
  timestamp : Nat
  message : String
  source : String
deriving DecidableEq, Repr

def stripConsoleState (e : StatefulConsoleEntry) : ConsoleEntry :=
  ⟨e.level, e.timestamp, e.message, e.source⟩

def ConsoleLevels : List String := ["log", "debug", "info", "warn", "error"]

def digitsNonempty (cs : List Char) : Bool :=
  !cs.isEmpty && cs.all Char.isDigit

/-- Models the zod refinement `s === 'unknown' || /.+:\d+:\d+$/.test(s)`:
a source is `"unknown"` or ends in `:line:column` with a nonempty head. -/
def sourceFormatOk (s : String) : Bool :=
  s == "unknown" ||
    (match (splitOnChars [':'] s.data).reverse with
     | colNum :: lineNum :: rest =>
       !(List.intercalate [':'] rest.reverse).isEmpty &&
         digitsNonempty lineNum && digitsNonempty colNum
     | _ => false)

/-- `ConsoleEntrySchema`: level from the enum, positive integer timestamp,
nonempty message, well-formed source. -/
def consoleEntryValid (e : ConsoleEntry) : Bool :=
  ConsoleLevels.contains e.level && decide (0 < e.timestamp) &&
    !e.message.isEmpty && sourceFormatOk e.source

/-- `createConsoleEntry`: validate, then tag with state `Created`. -/
def createConsoleEntry (e : ConsoleEntry) : Except String StatefulConsoleEntry :=
  if consoleEntryValid e then
    .ok ⟨e.level, e.timestamp, e.message, e.source, .Created⟩
  else .error "ValidationError: invalid console entry"

namespace StatefulConsoleEntry

def toBuffered (e : StatefulConsoleEntry) : Except String StatefulConsoleEntry :=
  if e.state = .Created then .ok { e with state := .Buffered }
  else .error ("Invalid transition: " ++ e.state.str ++ " -> Buffered")

def toStreamed (e : StatefulConsoleEntry) : Except String StatefulConsoleEntry :=
  if e.state = .Buffered then .ok { e with state := .Streamed }
  else .error ("Invalid transition: " ++ e.state.str ++ " -> Streamed")

end StatefulConsoleEntry

/-! ### NetworkRequest (src/models/network-request.ts) -/

def HttpMethods : List String :=
  ["GET", "POST", "PUT", "DELETE", "PATCH", "OPTIONS", "HEAD"]

inductive NetworkRequestState
  | Created
  | Updated
  | Completed
  | Failed
deriving DecidableEq, Repr

def NetworkRequestState.str : NetworkRequestState → String
  | .Created => "Created"
  | .Updated => "Updated"
  | .Completed => "Completed"
  | .Failed => "Failed"

structure StatefulNetworkRequest where
  requestId : String
  url : String
  method : String
  status : Option Nat
  origin : String
  timestamp : Nat
  duration : Option Nat
  requestHeaders : List (String × String)
  responseHeaders : Option (List (String × String))
  failed : Bool
  state : NetworkRequestState
deriving DecidableEq, Repr

/-- A network request as returned to clients (the `state` tag stripped). -/
structure NetworkRequest where
  requestId : String
  url : String
  method : String
  status : Option Nat
  origin : String
  timestamp : Nat
  duration : Option Nat
  requestHeaders : List (String × String)
  responseHeaders : Option (List (String × String))
  failed : Bool
deriving DecidableEq, Repr

def stripNetworkState (r : StatefulNetworkRequest) : NetworkRequest :=
  ⟨r.requestId, r.url, r.method, r.status, r.origin, r.timestamp, r.duration,
    r.requestHeaders, r.responseHeaders, r.failed⟩

/-- `NetworkRequestSchema`: nonempty requestId, parseable URL, method from
the enum, status in 100..599 when present, nonempty origin, positive
timestamp (`duration ≥ 0` holds by the `Nat` model). -/
def networkRequestValid (r : NetworkRequest) : Bool :=
  !r.requestId.isEmpty && (parseURL r.url).isSome && HttpMethods.contains r.method &&
    (match r.status with
     | some st => decide (100 ≤ st) && decide (st ≤ 599)
     | none => true) &&
    !r.origin.isEmpty && decide (0 < r.timestamp)

/-- `createNetworkRequest`: validate, then tag with state `Created`. -/
def createNetworkRequest (r : NetworkRequest) : Except String StatefulNetworkRequest :=
  if networkRequestValid r then
    .ok ⟨r.requestId, r.url, r.method, r.status, r.origin, r.timestamp, r.duration,
      r.requestHeaders, r.responseHeaders, r.failed, .Created⟩
  else .error "ValidationError: invalid network request"

namespace StatefulNetworkRequest

def toUpdated (r : StatefulNetworkRequest) : Except String StatefulNetworkRequest :=
  if r.state = .Created then .ok { r with state := .Updated }
  else .error ("Invalid transition: " ++ r.state.str ++ " -> Updated")

def toCompleted (r : StatefulNetworkRequest) : Except String StatefulNetworkRequest :=
  if r.state = .Updated then .ok { r with state := .Completed }
  else .error ("Invalid transition: " ++ r.state.str ++ " -> Completed")

def toFailed (r : StatefulNetworkRequest) : Except String StatefulNetworkRequest :=
  if r.state = .Created ∨ r.state = .Updated then .ok { r with state := .Failed }
  else .error ("Invalid transition: " ++ r.state.str ++ " -> Failed")

end StatefulNetworkRequest

/-- `VALID_TRANSITIONS` of src/models/network-request.ts. -/
def NetworkRequestState.validTransitions : NetworkRequestState → List NetworkRequestState
  | .Created => [.Updated, .Failed]
  | .Updated => [.Completed, .Failed]
  | .Completed => []
  | .Failed => []

def isValidNetworkTransition (f t : NetworkRequestState) : Bool :=
  f.validTransitions.contains t


/-! ### RuntimeEvaluation (src/models/runtime-evaluation.ts)

`result` is `z.any()`, so the model is generic over the value type `V`.
-/

inductive RuntimeEvaluationState
  | Created
  | Executed
  | Completed
  | Failed
deriving DecidableEq, Repr

def RuntimeEvaluationState.str : RuntimeEvaluationState → String
  | .Created => "Created"
  | .Executed => "Executed"
  | .Completed => "Completed"
  | .Failed => "Failed"

structure StatefulRuntimeEvaluation (V : Type) where
  id : String
  expression : String
  timestamp : Nat
  result : Option V
  error : Option String
  consoleOutput : List ConsoleEntry
  duration : Nat
  state : RuntimeEvaluationState
deriving DecidableEq, Repr

/-- `RuntimeEvaluationBaseSchema`: nonempty id and expression, positive
integer timestamp, valid console entries (`duration ≥ 0` holds by the
`Nat` model). -/
def runtimeEvaluationBaseValid {V : Type} (e : StatefulRuntimeEvaluation V) : Bool :=
  !e.id.isEmpty && !e.expression.isEmpty && decide (0 < e.timestamp) &&
    e.consoleOutput.all consoleEntryValid

/-- `RuntimeEvaluationSchema`: the base schema plus the `superRefine`
requiring exactly one of result/error to be present. -/
def runtimeEvaluationValid {V : Type} (e : StatefulRuntimeEvaluation V) : Bool :=
  runtimeEvaluationBaseValid e && (e.result.isSome != e.error.isSome)

/-- `StatefulRuntimeEvaluationSchema`: the base schema plus the
per-state `superRefine` on result/error presence. -/
def statefulRuntimeEvaluationValid {V : Type} (e : StatefulRuntimeEvaluation V) : Bool :=
  runtimeEvaluationBaseValid e &&
    (match e.state with
     | .Completed => e.result.isSome && !e.error.isSome
     | .Failed => e.error.isSome && !e.result.isSome
     | _ => !e.result.isSome && !e.error.isSome)

/-- `createRuntimeEvaluation`: parses against the *base* schema only
(interim states need neither result nor error), then tags `Created`. -/
def createRuntimeEvaluation {V : Type} (e : StatefulRuntimeEvaluation V) :
    Except String (StatefulRuntimeEvaluation V) :=
  if runtimeEvaluationBaseValid e then .ok { e with state := .Created }
  else .error "ValidationError: invalid runtime evaluation"

namespace StatefulRuntimeEvaluation

def toExecuted {V : Type} (e : StatefulRuntimeEvaluation V) :
    Except String (StatefulRuntimeEvaluation V) :=
  if e.state = .Created then .ok { e with state := .Executed }
  else .error ("Invalid transition: " ++ e.state.str ++ " -> Executed")

def toCompleted {V : Type} (e : StatefulRuntimeEvaluation V) :
    Except String (StatefulRuntimeEvaluation V) :=
  if e.state = .Executed then .ok { e with state := .Completed }
  else .error ("Invalid transition: " ++ e.state.str ++ " -> Completed")

def toFailed {V : Type} (e : StatefulRuntimeEvaluation V) :
    Except String (StatefulRuntimeEvaluation V) :=
  if e.state = .Executed then .ok { e with state := .Failed }
  else .error ("Invalid transition: " ++ e.state.str ++ " -> Failed")

end StatefulRuntimeEvaluation

/-! ### BrowserTarget (src/models/browser-target.ts) -/

inductive BrowserTargetState
  | Discovered
  | Attached
  | Active
  | Detached
deriving DecidableEq, Repr

structure BrowserTarget where
  id : String
  url : String
  title : String
  type : String
  attached : Bool
  canAttach : Bool
  lastActivity : Nat
deriving DecidableEq, Repr

/-- `isLocalhost5173Target`: URL parses, hostname is `localhost`, port is
`5173` (the `URL` constructor throwing is caught and yields `false`). -/
def isLocalhost5173Target (target : BrowserTarget) : Bool :=
  match parseURL target.url with
  | some u => u.hostname == "localhost" && u.port == "5173"
  | none => false

/-- The second-tier predicate inlined in `selectPriorityTarget`:
attachable target whose URL host is `localhost` (any port). -/
def isLocalhostAttachableTarget (target : BrowserTarget) : Bool :=
  match parseURL target.url with
  | some u => u.hostname == "localhost" && target.canAttach
  | none => false

/-- `selectPriorityTarget`: three-tier priority — attachable
`localhost:5173` targets, then any attachable `localhost` target, then
any attachable target; `undefined` (here `none`) otherwise. -/
def selectPriorityTarget (targets : List BrowserTarget) : Option BrowserTarget :=
  let localhost5173Targets :=
    targets.filter fun target => isLocalhost5173Target target && target.canAttach
  match localhost5173Targets.head? with
  | some t => some t
  | none =>
    let localhostTargets := targets.filter isLocalhostAttachableTarget
    match localhostTargets.head? with
    | some t => some t
    | none =>
      let attachableTargets := targets.filter fun target => target.canAttach
      attachableTargets.head?

/-! ## BufferManager (src/services/buffer-manager.ts, class BufferManager) -/

structure BufferConfig where
  console : Nat
  network : Nat

/-- `QueryOptions`. All fields are optional; the numeric fields are
JavaScript numbers, modelled as `Int` where the code relies on
truthiness of the value. -/
structure QueryOptions where
  count : Option Int
  since : Option Int
  level : Option String
  method : Option String
  status : Option Nat
  domain : Option String
deriving Repr

def QueryOptions.noOpts : QueryOptions := ⟨none, none, none, none, none, none⟩

/-- JavaScript truthiness of an optional string (`undefined` and `""` are
falsy). -/
def truthyS : Option String → Bool
  | some s => !s.isEmpty
  | none => false

/-- JavaScript truthiness of an optional number (`undefined` and `0` are
falsy). -/
def truthyI : Option Int → Bool
  | some n => n != 0
  | none => false

def truthyN : Option Nat → Bool
  | some n => n != 0
  | none => false

/-- JavaScript `haystack.includes(needle)` on strings. -/
def strIncludes (haystack needle : String) : Bool :=
  if needle.isEmpty then true else (takeUntilSep needle.data haystack.data).isSome

/-- Model of the JavaScript idiom `if (options.x) { list = list.filter(f) }`
used by both query methods: the filter step runs only when the option
value is truthy (present, and neither the empty string nor zero). -/
def applyGuard {α β : Type} (opt : Option β) (emptyTest : β → Bool) (p : β → α → Bool)
    (entries : List α) : List α :=
  match opt with
  | some v => if emptyTest v then entries else entries.filter (p v)
  | none => entries

/-- The predicate a single truthiness-guarded filter step lets through: a
filter given as a falsy value (absent, empty string, zero) passes every
element. -/
def guardPred {α β : Type} (opt : Option β) (emptyTest : β → Bool) (p : β → α → Bool)
    (e : α) : Bool :=
  match opt with
  | some v => if emptyTest v then true else p v e
  | none => true

structure BufferManager where
  consoleBuffer : CircularBuffer StatefulConsoleEntry
  networkBuffer : CircularBuffer StatefulNetworkRequest

namespace BufferManager

def mkManager (config : BufferConfig) : BufferManager :=
  ⟨CircularBuffer.mkBuffer config.console, CircularBuffer.mkBuffer config.network⟩

def addConsoleEntry (bm : BufferManager) (entry : StatefulConsoleEntry) : BufferManager :=
  { bm with consoleBuffer := bm.consoleBuffer.add entry }

/-- The ascending-timestamp comparator `(a, b) => a.timestamp - b.timestamp`
passed to the (stable) `Array.prototype.sort`. -/
def consoleTsLe (a b : StatefulConsoleEntry) : Prop :=
  a.timestamp ≤ b.timestamp

instance : DecidableRel consoleTsLe := fun a b => Nat.decLe _ _

def networkTsLe (a b : StatefulNetworkRequest) : Prop :=
  a.timestamp ≤ b.timestamp

instance : DecidableRel networkTsLe := fun a b => Nat.decLe _ _

/-- `queryConsoleEntries(options)`: sequential truthiness-guarded filters,
stable sort ascending by timestamp, `totalCount` before the limit,
`slice(-count)` when a positive count is given, state stripped from the
returned entries. -/
def queryConsoleEntries (bm : BufferManager) (options : QueryOptions) :
    List ConsoleEntry × Nat :=
  let entries := bm.consoleBuffer.getAll
  let entries := applyGuard options.level String.isEmpty (fun lv e => e.level == lv) entries
  let entries := applyGuard options.since (fun s => s == 0)
    (fun s e => decide (s ≤ (e.timestamp : Int))) entries
  let entries := entries.insertionSort consoleTsLe
  let totalCount := entries.length
  let entries :=
    match options.count with
    | some c => if 0 < c then entries.drop (entries.length - c.toNat) else entries
    | none => entries
  (entries.map stripConsoleState, totalCount)

def addNetworkRequest (bm : BufferManager) (request : StatefulNetworkRequest) :
    BufferManager :=
  let r := bm.networkBuffer.replaceFirst (fun req => req.requestId == request.requestId) request
  if r.2 then { bm with networkBuffer := r.1 }
  else { bm with networkBuffer := r.1.add request }

/-- `queryNetworkRequests(options)`: like the console query, with
method/status/domain/since filters. -/
def queryNetworkRequests (bm : BufferManager) (options : QueryOptions) :
    List NetworkRequest × Nat :=
  let requests := bm.networkBuffer.getAll
  let requests := applyGuard options.method String.isEmpty (fun m r => r.method == m) requests
  let requests := applyGuard options.status (fun st => st == 0)
    (fun st r => r.status == some st) requests
  let requests := applyGuard options.domain String.isEmpty
    (fun d r =>
      match parseURL r.url with
      | some u => strIncludes u.hostname d
      | none => false) requests
  let requests := applyGuard options.since (fun s => s == 0)
    (fun s r => decide (s ≤ (r.timestamp : Int))) requests
  let requests := requests.insertionSort networkTsLe
  let totalCount := requests.length
  let requests :=
    match options.count with
    | some c => if 0 < c then requests.drop (requests.length - c.toNat) else requests
    | none => requests
  (requests.map stripNetworkState, totalCount)

def getStats (bm : BufferManager) : (Nat × Nat) × (Nat × Nat) :=
  ((bm.consoleBuffer.size, bm.consoleBuffer.getCapacity),
   (bm.networkBuffer.size, bm.networkBuffer.getCapacity))

end BufferManager

/-- The conjunction of the console filters the code actually applies
(level and since, each skipped when falsy). -/
def consoleQueryPred (options : QueryOptions) (e : StatefulConsoleEntry) : Bool :=
  guardPred options.since (fun s => s == 0)
      (fun s e => decide (s ≤ (e.timestamp : Int))) e &&
    guardPred options.level String.isEmpty (fun lv e => e.level == lv) e

/-- The conjunction of the network filters the code actually applies
(method, status, domain, since, each skipped when falsy). -/
def networkQueryPred (options : QueryOptions) (r : StatefulNetworkRequest) : Bool :=
  guardPred options.since (fun s => s == 0)
      (fun s r => decide (s ≤ (r.timestamp : Int))) r &&
    guardPred options.domain String.isEmpty
      (fun d r =>
        match parseURL r.url with
        | some u => strIncludes u.hostname d
        | none => false) r &&
    guardPred options.status (fun st => st == 0) (fun st r => r.status == some st) r &&
    guardPred options.method String.isEmpty (fun m r => r.method == m) r

/-- `slice(-count)` applied when a positive count limit is given. -/
def applyCountLimit {α : Type} (count : Option Int) (l : List α) : List α :=
  match count with
  | some c => if 0 < c then l.drop (l.length - c.toNat) else l
  | none => l

instance : IsTotal StatefulConsoleEntry BufferManager.consoleTsLe :=
  ⟨fun a b => Nat.le_total a.timestamp b.timestamp⟩

instance : IsTrans StatefulConsoleEntry BufferManager.consoleTsLe :=
  ⟨fun _ _ _ => Nat.le_trans⟩

instance : IsTotal StatefulNetworkRequest BufferManager.networkTsLe :=
  ⟨fun a b => Nat.le_total a.timestamp b.timestamp⟩

instance : IsTrans StatefulNetworkRequest BufferManager.networkTsLe :=
  ⟨fun _ _ _ => Nat.le_trans⟩

/-- The requestIds of the records stored in a network buffer's backing
array, in slot order. -/
def storedIds (items : List (Option StatefulNetworkRequest)) : List String :=
  (items.filterMap id).map fun r => r.requestId

/-- The lifecycle state of the stored record for `rid`, if any. -/
def storedStateOf (bm : BufferManager) (rid : String) : Option NetworkRequestState :=
  ((bm.networkBuffer.items.filterMap id).find? fun r => r.requestId == rid).map
    fun r => r.state

/-! ## CDPClient (src/services/cdp-client.ts) -/

/-- Model of one `connect()` run against a permanently failing endpoint.
Each invocation of `connect()` makes one failing connection attempt and
hands the error to `handleConnectionError`, which — while
`reconnectAttempts < maxReconnectAttempts` — increments the counter,
waits `reconnectDelay * 2 ^ (reconnectAttempts - 1)` ms and recursively
calls `connect()` again; otherwise it throws the terminal error.
`errOf i` is the failure message of the `i`-th (0-based) attempt.
Returns (total number of attempts, list of waits, terminal message). -/
def failingConnect (reconnectDelay maxReconnectAttempts : Nat) (errOf : Nat → String)
    (reconnectAttempts : Nat) : Nat × List Nat × String :=
  if reconnectAttempts < maxReconnectAttempts then
    let delay := reconnectDelay * 2 ^ ((reconnectAttempts + 1) - 1)
    let rest := failingConnect reconnectDelay maxReconnectAttempts errOf (reconnectAttempts + 1)
    (rest.1 + 1, delay :: rest.2.1, rest.2.2)
  else
    (1, [],
      "Failed to connect to Chrome DevTools after " ++ toString maxReconnectAttempts
        ++ " attempts: " ++ errOf reconnectAttempts)
termination_by maxReconnectAttempts - reconnectAttempts

/-- Result of `evaluateExpression`: the settled outcome plus whether the
underlying `Runtime.evaluate` call was issued at all. -/
structure EvalRunResult (V : Type) where
  outcome : Except String V
  evalIssued : Bool
deriving Repr

/-- `evaluateExpression(expression, timeout)`: throws immediately when no
client is connected; otherwise races `Runtime.evaluate` against a
`setTimeout(timeout)` timer. `settleTime` is when the protocol response
settles (`none` = never); the race resolves to whichever side settles
first, and the loser is merely discarded — nothing cancels the
underlying call. -/
def evaluateExpression {V : Type} (clientConnected : Bool) (timeout : Nat)
    (settleTime : Option Nat) (response : V) : EvalRunResult V :=
  if !clientConnected then ⟨.error "CDP client not connected", false⟩
  else
    match settleTime with
    | none => ⟨.error "Evaluation timeout", true⟩
    | some t =>
      if timeout < t then ⟨.error "Evaluation timeout", true⟩
      else ⟨.ok response, true⟩

/-- Method names of ECMAScript `Set.prototype`. `CDPClient.consoleListeners`
and `networkListeners` are declared `Set<...>` and initialized with
`new Set()`, so dynamic method calls on them resolve against this
prototype. Note that `push` is not among them. -/
def setPrototypeMethods : List String :=
  ["add", "clear", "delete", "difference", "entries", "forEach", "has",
   "intersection", "isDisjointFrom", "isSubsetOf", "isSupersetOf", "keys",
   "symmetricDifference", "union", "values"]

/-- Looking a method up on `Set.prototype`; `none` models the `undefined`
that a JavaScript property access yields for an absent method. -/
def jsSetMethodLookup (method : String) : Option Unit :=
  if setPrototypeMethods.contains method then some () else none

/-- Listener-related state of a `CDPClient`; callbacks are identified by
opaque names. -/
structure CDPClientListeners where
  clientConnected : Bool
  consoleListeners : List String
  networkListeners : List String
deriving DecidableEq, Repr

namespace CDPClientListeners

/-- `onConsoleMessage(callback)`: the source executes
`this.consoleListeners.push(callback)`. `Set.prototype` has no `push`,
so the dynamic call is a call of `undefined` and throws a `TypeError`
before the callback is recorded. -/
def onConsoleMessage (st : CDPClientListeners) (callback : String) :
    Except String CDPClientListeners :=
  match jsSetMethodLookup "push" with
  | none => .error "TypeError: this.consoleListeners.push is not a function"
  | some _ => .ok { st with consoleListeners := st.consoleListeners ++ [callback] }

/-- `onNetworkRequest(callback)`: likewise executes
`this.networkListeners.push(callback)` on a `Set`. -/
def onNetworkRequest (st : CDPClientListeners) (callback : String) :
    Except String CDPClientListeners :=
  match jsSetMethodLookup "push" with
  | none => .error "TypeError: this.networkListeners.push is not a function"
  | some _ => .ok { st with networkListeners := st.networkListeners ++ [callback] }

end CDPClientListeners

/-! ## MCPTools (src/services/mcp-tools.ts) -/

/-- The four raw CDP network events the listener in `setupCDPListeners`
handles. -/
inductive CDPNetworkEvent where
  | requestWillBeSent (requestId url method : String) (headers : List (String × String))
  | responseReceived (requestId : String) (status : Nat) (headers : List (String × String))
  | requestFinished (requestId : String) (encodedDataLength : Bool)
  | requestFailed (requestId : String)
deriving DecidableEq, Repr

def headerReferer (headers : List (String × String)) : Option String :=
  (headers.find? fun h => h.1 == "referer").map fun h => h.2

/-- `event.request.headers?.referer || event.request.url` (JavaScript `||`:
an empty referer falls back to the url). -/
def originOf (headers : List (String × String)) (url : String) : String :=
  match headerReferer headers with
  | some r => if r.isEmpty then url else r
  | none => url

/-- The body of the network listener registered in `setupCDPListeners`:
normalizes each raw event into a `NetworkRequest` lifecycle step. Events
for a `requestId` with no stored record are dropped. The lookup goes
through `queryNetworkRequests()`, whose results have the lifecycle
`state` stripped, and the record is then rebuilt with
`createNetworkRequest` (state `Created`) before the transition calls. -/
def handleNetworkEventBody (now : Nat) (bm : BufferManager) :
    CDPNetworkEvent → Except String BufferManager
  | .requestWillBeSent requestId url method headers => do
    let networkRequest ← createNetworkRequest
      ⟨requestId, url, method, none, originOf headers url, now, none, headers, none, false⟩
    pure (bm.addNetworkRequest networkRequest)
  | .responseReceived requestId status headers =>
    let requests := (bm.queryNetworkRequests QueryOptions.noOpts).1
    match requests.find? fun req => req.requestId == requestId with
    | none => pure bm
    | some existingRequest => do
      let rebuilt ← createNetworkRequest
        { existingRequest with status := some status, responseHeaders := some headers }
      let updatedRequest ← rebuilt.toUpdated
      pure (bm.addNetworkRequest updatedRequest)
  | .requestFinished requestId encodedDataLength =>
    let requests := (bm.queryNetworkRequests QueryOptions.noOpts).1
    match requests.find? fun req => req.requestId == requestId with
    | none => pure bm
    | some existingRequest => do
      let rebuilt ← createNetworkRequest
        { existingRequest with
          duration := if encodedDataLength then some (now - existingRequest.timestamp) else none }
      let updatedRequest ← rebuilt.toUpdated
      let completedRequest ← updatedRequest.toCompleted
      pure (bm.addNetworkRequest completedRequest)
  | .requestFailed requestId =>
    let requests := (bm.queryNetworkRequests QueryOptions.noOpts).1
    match requests.find? fun req => req.requestId == requestId with
    | none => pure bm
    | some existingRequest => do
      let rebuilt ← createNetworkRequest
        { existingRequest with
          failed := true, duration := some (now - existingRequest.timestamp) }
      let failedRequest ← rebuilt.toFailed
      pure (bm.addNetworkRequest failedRequest)

/-- The network listener with its surrounding `try/catch`: any thrown
error is logged with `console.warn` and swallowed, leaving the manager
unchanged. -/
def handleNetworkEvent (now : Nat) (bm : BufferManager) (event : CDPNetworkEvent) :
    BufferManager :=
  match handleNetworkEventBody now bm event with
  | .ok updated => updated
  | .error _ => bm

/-- `assertExpressionSafe` (src/lib/security-validator.ts) with the
destructive-pattern denylist abstracted into a Boolean predicate
`isSafe` (the spec, §1, treats the denylist itself as an external
collaborator; only its throw-on-match behaviour matters here). -/
def assertExpressionSafe (isSafe : String → Bool) (expression : String) :
    Except String Unit :=
  if isSafe expression then .ok ()
  else
    .error
      "security violation: destructive operations are blocked in development (read-only debugging only)"

/-- The shape of a `Runtime.evaluate` protocol response as used by
`handleRuntimeEval`: `exceptionDetails = some d` models a present
`exceptionDetails` object whose `exception?.description` is `d`. -/
structure CDPEvalResponse (V : Type) where
  resultValue : Option V
  exceptionDetails : Option (Option String)
deriving DecidableEq, Repr

/-- The JSON payload `handleRuntimeEval` serializes on return. The catch
branch omits `result` (here: `none`). -/
structure RuntimeEvalToolResponse (V : Type) where
  id : String
  expression : String
  timestamp : Nat
  result : Option V
  error : Option String
  consoleOutput : List ConsoleEntry
  duration : Nat
deriving DecidableEq, Repr

def responseOfEvaluation {V : Type} (ev : StatefulRuntimeEvaluation V) :
    RuntimeEvalToolResponse V :=
  ⟨ev.id, ev.expression, ev.timestamp, ev.result, ev.error, ev.consoleOutput, ev.duration⟩

/-- `handleRuntimeEval(args)`. `evalOutcome` is the settled outcome of
`cdpClient.evaluateExpression` (`Except.error` models its rejection).
The `consoleOutputBuffer` is cleared at entry and never written to, so
`consoleOutput` is always `[]`. The `try` block is modelled as an
`Except` whose error carries the value the mutable local `evaluation`
has at the point of the throw, which the `catch` branch then feeds to
`toFailed`; an error thrown by the `catch` branch itself propagates to
the caller. -/
def handleRuntimeEval {V : Type} (isSafe : String → Bool)
    (target : Option BrowserTarget) (expression : String) (timeout : Nat)
    (startTime endTime : Nat) (evalId : String)
    (evalOutcome : Except String (CDPEvalResponse V)) :
    Except String (RuntimeEvalToolResponse V) :=
  if expression.isEmpty || timeout < 100 || 30000 < timeout then
    .error "ValidationError: invalid runtime eval input"
  else
    match target with
    | none => .error "No browser target available"
    | some _ =>
      match createRuntimeEvaluation (V := V)
          ⟨evalId, expression, startTime, none, none, [], 0, .Created⟩ with
      | .error e => .error e
      | .ok evaluation =>
        let tryResult :
            Except (String × StatefulRuntimeEvaluation V) (RuntimeEvalToolResponse V) :=
          match assertExpressionSafe isSafe expression with
          | .error msg => .error (msg, evaluation)
          | .ok _ =>
            match evaluation.toExecuted with
            | .error msg => .error (msg, evaluation)
            | .ok ev2 =>
              match evalOutcome with
              | .error msg => .error (msg, ev2)
              | .ok response =>
                match response.exceptionDetails with
                | some desc =>
                  let errMsg :=
                    match desc with
                    | some d => if d.isEmpty then "Evaluation failed" else d
                    | none => "Evaluation failed"
                  match StatefulRuntimeEvaluation.toFailed
                      { ev2 with error := some errMsg, duration := endTime - startTime } with
                  | .error msg => .error (msg, ev2)
                  | .ok ev3 => .ok (responseOfEvaluation ev3)
                | none =>
                  match StatefulRuntimeEvaluation.toCompleted
                      { ev2 with
                        result := response.resultValue, duration := endTime - startTime } with
                  | .error msg => .error (msg, ev2)
                  | .ok ev3 => .ok (responseOfEvaluation ev3)
        match tryResult with
        | .ok r => .ok r
        | .error me =>
          match StatefulRuntimeEvaluation.toFailed
              { me.2 with error := some me.1, duration := endTime - startTime } with
          | .error msg => .error msg
          | .ok ev3 => .ok { responseOfEvaluation ev3 with result := none }

namespace CircularBuffer

theorem getD_replicate {α : Type} (N i : Nat) :
    (List.replicate N (none : Option α)).getD i none = none := by
  induction N generalizing i with
  | zero => cases i <;> rfl
  | succ n ih =>
    cases i with
    | zero => rfl
    | succ j => simpa [List.replicate] using ih j

theorem getD_set_ne {α : Type} (l : List (Option α)) (v : Option α) :
    ∀ i j, i ≠ j → (l.set i v).getD j none = l.getD j none := by
  induction l with
  | nil => intro i j _; rfl
  | cons a t ih =>
    intro i j h
    cases i with
    | zero =>
      cases j with
      | zero => exact absurd rfl h
      | succ j => rfl
    | succ i =>
      cases j with
      | zero => rfl
      | succ j =>
        simpa [List.set, List.getD] using ih i j (fun hh => h (by rw [hh]))

theorem getD_set_self {α : Type} (l : List (Option α)) (v : Option α) :
    ∀ i, i < l.length → (l.set i v).getD i none = v := by
  induction l with
  | nil => intro i h; simp at h
  | cons a t ih =>
    intro i h
    cases i with
    | zero => rfl
    | succ i => simpa [List.set, List.getD] using ih i (by simpa using h)

theorem slot_ne (N n k : Nat) (hn : n < N) (hk1 : 1 ≤ k) (hk2 : k < N) :
    (n + k) % N ≠ n := by
  intro hEq
  have h1 : n % N = (n + k) % N := by rw [Nat.mod_eq_of_lt hn, hEq]
  have h2 : N ∣ (n + k) - n := (Nat.modEq_iff_dvd' (Nat.le_add_right n k)).mp h1
  have h3 : (n + k) - n = k := by omega
  rw [h3] at h2
  exact absurd (Nat.le_of_dvd (by omega) h2) (by omega)

theorem inv_mkBuffer {α : Type} (N : Nat) (hN : 1 ≤ N) :
    Inv N (mkBuffer N : CircularBuffer α) [] := by
  refine ⟨rfl, List.length_replicate .., by simpa [mkBuffer] using hN, by simp, ?_, ?_⟩
  · intro i h; simp at h
  · intro i _; exact getD_replicate N _

theorem inv_add {α : Type} {N : Nat} (hN : 1 ≤ N) {b : CircularBuffer α} {l : List α}
    (h : Inv N b l) (x : α) : Inv N (b.add x) (rbAbs N l x) := by
  obtain ⟨cap, len, idx, llen, filled, vacant⟩ := h
  unfold add rbAbs
  rw [cap]
  by_cases hfull : l.length < N
  · -- buffer not yet full: new content is l ++ [x]
    simp only [if_pos hfull]
    refine ⟨rfl, by simpa using len, Nat.mod_lt _ (by omega), ?_, ?_, ?_⟩
    · rw [List.length_append, List.length_singleton]; omega
    · intro i hi
      rw [List.length_append, List.length_singleton] at hi
      have hidx : ((b.nextIndex + 1) % N + ((N - (l ++ [x]).length) + i)) % N
          = (b.nextIndex + ((N - l.length) + i)) % N := by
        rw [List.length_append, List.length_singleton, Nat.mod_add_mod]
        have harg : b.nextIndex + 1 + (N - (l.length + 1) + i)
            = b.nextIndex + ((N - l.length) + i) := by omega
        rw [harg]
      rw [hidx]
      by_cases hiL : i < l.length
      · have hne : (b.nextIndex + ((N - l.length) + i)) % N ≠ b.nextIndex := by
          apply slot_ne N _ _ idx <;> omega
        rw [getD_set_ne _ _ _ _ (Ne.symm hne), filled i hiL]
        exact (List.get?_append hiL).symm
      · have hiL' : i = l.length := by omega
        subst hiL'
        have harg2 : b.nextIndex + ((N - l.length) + l.length) = b.nextIndex + N := by
          omega
        rw [harg2, Nat.add_mod_right, Nat.mod_eq_of_lt idx]
        rw [getD_set_self _ _ _ (by omega)]
        rw [List.get?_append_right (Nat.le_refl _), Nat.sub_self]
        rfl
    · intro i hi
      rw [List.length_append, List.length_singleton] at hi
      have hidx : ((b.nextIndex + 1) % N + i) % N = (b.nextIndex + (1 + i)) % N := by
        rw [Nat.mod_add_mod]
        have harg : b.nextIndex + 1 + i = b.nextIndex + (1 + i) := by omega
        rw [harg]
      rw [hidx]
      have hne : (b.nextIndex + (1 + i)) % N ≠ b.nextIndex := by
        apply slot_ne N _ _ idx <;> omega
      rw [getD_set_ne _ _ _ _ (Ne.symm hne)]
      exact vacant (1 + i) (by omega)
  · -- buffer full: new content is l.tail ++ [x]
    have hL : l.length = N := by omega
    simp only [if_neg hfull]
    have htail : l.tail.length = N - 1 := by
      rw [List.length_tail, hL]
    have hlen' : (l.tail ++ [x]).length = N := by
      rw [List.length_append, List.length_singleton, htail]; omega
    refine ⟨rfl, by simpa using len, Nat.mod_lt _ (by omega), by rw [hlen'], ?_, ?_⟩
    · intro i hi
      rw [hlen'] at hi
      have hidx : ((b.nextIndex + 1) % N + ((N - (l.tail ++ [x]).length) + i)) % N
          = (b.nextIndex + (1 + i)) % N := by
        rw [hlen', Nat.sub_self, Nat.zero_add, Nat.mod_add_mod]
        have harg : b.nextIndex + 1 + i = b.nextIndex + (1 + i) := by omega
        rw [harg]
      rw [hidx]
      by_cases hiN : i < N - 1
      · have hne : (b.nextIndex + (1 + i)) % N ≠ b.nextIndex := by
          apply slot_ne N _ _ idx <;> omega
        rw [getD_set_ne _ _ _ _ (Ne.symm hne)]
        have hf := filled (i + 1) (by omega)
        rw [hL, Nat.sub_self, Nat.zero_add] at hf
        have harg : b.nextIndex + (1 + i) = b.nextIndex + (i + 1) := by omega
        rw [harg, hf]
        rw [List.get?_append (by omega)]
        cases l with
        | nil => rw [List.length_nil] at hL; omega
        | cons a t => rfl
      · have hiN' : i = N - 1 := by omega
        subst hiN'
        have harg : b.nextIndex + (1 + (N - 1)) = b.nextIndex + N := by omega
        rw [harg, Nat.add_mod_right, Nat.mod_eq_of_lt idx]
        rw [getD_set_self _ _ _ (by omega)]
        rw [List.get?_append_right (by omega), htail, Nat.sub_self]
        rfl
    · intro i hi
      rw [hlen'] at hi
      omega

theorem filterMap_get?_range {α : Type} (l : List α) :
    (List.range l.length).filterMap l.get? = l := by
  induction l with
  | nil => simp
  | cons a t ih =>
    rw [List.length_cons, List.range_succ_eq_map, List.filterMap_cons]
    have h0 : (a :: t).get? 0 = some a := rfl
    rw [h0, List.filterMap_map]
    have hc : (a :: t).get? ∘ Nat.succ = t.get? := funext fun n => rfl
    rw [hc, ih]

theorem getAll_eq {α : Type} {N : Nat} {b : CircularBuffer α} {l : List α}
    (h : Inv N b l) : b.getAll = l := by
  obtain ⟨cap, len, idx, llen, filled, vacant⟩ := h
  unfold getAll
  rw [cap]
  have hranges : List.range N
      = List.range (N - l.length) ++ (List.range l.length).map (fun j => (N - l.length) + j) := by
    rw [← List.range_add]
    congr 1
    omega
  rw [hranges, List.filterMap_append, List.filterMap_map]
  have h1 : (List.range (N - l.length)).filterMap
      (fun i => b.items.getD ((b.nextIndex + i) % N) none) = [] := by
    rw [List.filterMap_eq_nil]
    intro i hi
    exact vacant i (List.mem_range.mp hi)
  have h2 : (List.range l.length).filterMap
      ((fun i => b.items.getD ((b.nextIndex + i) % N) none) ∘ (fun j => (N - l.length) + j))
      = l := by
    have hcong : ∀ j ∈ List.range l.length,
        ((fun i => b.items.getD ((b.nextIndex + i) % N) none) ∘
          (fun j => (N - l.length) + j)) j = l.get? j := by
      intro j hj
      exact filled j (List.mem_range.mp hj)
    rw [List.filterMap_congr hcong, filterMap_get?_range]
  rw [h1, h2, List.nil_append]

theorem inv_addAll {α : Type} {N : Nat} (hN : 1 ≤ N) (xs : List α) :
    ∀ (b : CircularBuffer α) (l : List α), Inv N b l →
      Inv N (b.addAll xs) (xs.foldl (rbAbs N) l) := by
  induction xs with
  | nil => intro b l h; exact h
  | cons x xs ih =>
    intro b l h
    exact ih _ _ (inv_add hN h x)

theorem rbAbs_foldl {α : Type} (N : Nat) (hN : 1 ≤ N) (xs : List α) :
    xs.foldl (rbAbs N) [] = xs.drop (xs.length - N) := by
  induction xs using List.reverseRecOn with
  | nil => simp
  | append_singleton xs x ih =>
    rw [List.foldl_append, List.foldl_cons, List.foldl_nil, ih]
    unfold rbAbs
    rw [List.length_drop]
    by_cases hlt : xs.length < N
    · have h0 : xs.length - N = 0 := by omega
      have h1 : (xs ++ [x]).length - N = 0 := by
        rw [List.length_append, List.length_singleton]; omega
      rw [h0, if_pos (by omega), h1]
      simp
    · have hmin : xs.length - (xs.length - N) = N := by omega
      rw [hmin, if_neg (by omega), List.tail_drop]
      have h2 : (xs ++ [x]).length - N = (xs.length - N) + 1 := by
        rw [List.length_append, List.length_singleton]; omega
      rw [h2, List.drop_append_of_le_length (by omega)]

end CircularBuffer

/-! ## Claim C1 -/

/-- **C1**: for every capacity `N ≥ 1` and every sequence `xs` of adds to a
`CircularBuffer`, `getAll()` returns the last `N` added items in insertion
(oldest-to-newest) order; when `xs.length ≤ N` this is all of `xs`, and when
`xs.length > N` exactly `N` items remain. -/
theorem circularBuffer_getAll_last_items {α : Type} (N : Nat) (hN : 1 ≤ N) (xs : List α) :
    ((CircularBuffer.mkBuffer N).addAll xs).getAll = xs.drop (xs.length - N) ∧
    (xs.length ≤ N → ((CircularBuffer.mkBuffer N).addAll xs).getAll = xs) ∧
    (N < xs.length → ((CircularBuffer.mkBuffer N).addAll xs).getAll.length = N) := by
  have h := CircularBuffer.getAll_eq
    (CircularBuffer.inv_addAll hN xs _ _ (CircularBuffer.inv_mkBuffer N hN))
  rw [CircularBuffer.rbAbs_foldl N hN] at h
  refine ⟨h, ?_, ?_⟩
  · intro hle
    rw [h]
    have : xs.length - N = 0 := by omega
    rw [this, List.drop_zero]
  · intro hgt
    rw [h, List.length_drop]
    omega

/-- Witness for C1 at `N = 2`, `xs = [1, 2, 3]`: the two oldest-surviving
items `[2, 3]` are returned, in insertion order. -/
theorem circularBuffer_getAll_last_items_witness :
    ((CircularBuffer.mkBuffer 2).addAll [1, 2, 3] : CircularBuffer Nat).getAll = [2, 3] := by
  have h := (circularBuffer_getAll_last_items 2 (by decide) [1, 2, 3]).1
  simpa using h

/-! ## Claim C5 -/

/-- **C5**: `evaluateExpression` fails immediately with the not-connected
error (without issuing the evaluation call) when no session is
connected; when connected, it fails with the evaluation-timeout error
whenever the timer elapses before the protocol response settles, and in
that case the (uncancelled) underlying call's late settlement value has
no effect on the outcome. -/
theorem evaluateExpression_connection_and_timeout {V : Type} (timeout : Nat)
    (settleTime : Option Nat) (response : V) :
    (evaluateExpression false timeout settleTime response
      = ⟨.error "CDP client not connected", false⟩) ∧
    (settleTime = none →
      evaluateExpression true timeout settleTime response
        = ⟨.error "Evaluation timeout", true⟩) ∧
    (∀ t, settleTime = some t → timeout < t →
      evaluateExpression true timeout settleTime response
        = ⟨.error "Evaluation timeout", true⟩) ∧
    (∀ response' : V,
      (settleTime = none ∨ ∃ t, settleTime = some t ∧ timeout < t) →
      evaluateExpression true timeout settleTime response
        = evaluateExpression true timeout settleTime response') := by
  refine ⟨rfl, ?_, ?_, ?_⟩
  · intro h
    subst h
    rfl
  · intro t h ht
    subst h
    simp [evaluateExpression, ht]
  · intro response' h
    rcases h with h | ⟨t, h, ht⟩
    · subst h; rfl
    · subst h; simp [evaluateExpression, ht]

/-- Witness for C5: with a 5000 ms timeout and a response settling at
6000 ms the outcome is the timeout error and the evaluation call was
issued. -/
theorem evaluateExpression_connection_and_timeout_witness :
    evaluateExpression (V := Nat) true 5000 (some 6000) 0
      = ⟨.error "Evaluation timeout", true⟩ :=
  (evaluateExpression_connection_and_timeout 5000 (some 6000) 0).2.2.1 6000 rfl (by decide)

/-! ## Claim C9 -/

/-- **C9** (claim: listener registration always succeeds and is recorded)
is contradicted by the code: `consoleListeners`/`networkListeners` are
`Set`s, yet `onConsoleMessage`/`onNetworkRequest` invoke `.push` on them.
`Set.prototype` has no `push`, so for every callback and in every
connection state the registration throws a `TypeError` and nothing is
recorded. -/
theorem listener_registration_always_throws (st : CDPClientListeners) (callback : String) :
    st.onConsoleMessage callback
      = .error "TypeError: this.consoleListeners.push is not a function" ∧
    st.onNetworkRequest callback
      = .error "TypeError: this.networkListeners.push is not a function" := by
  exact ⟨rfl, rfl⟩

/-! ## Claim C7 -/

/-- **C7**: a `RuntimeEvaluation` accepted by the stateful schema has
`result` present and `error` absent in state `Completed`, the opposite
in state `Failed`, and neither in `Created`/`Executed`; and the base
schema's XOR refinement rejects any record with both or neither of
result/error present. -/
theorem runtimeEvaluation_result_error_invariant {V : Type} (e : StatefulRuntimeEvaluation V) :
    (statefulRuntimeEvaluationValid e = true →
      (e.state = .Completed → e.result.isSome = true ∧ e.error = none) ∧
      (e.state = .Failed → e.error.isSome = true ∧ e.result = none) ∧
      (e.state = .Created ∨ e.state = .Executed → e.result = none ∧ e.error = none)) ∧
    ((e.result.isSome = true ∧ e.error.isSome = true) ∨ (e.result = none ∧ e.error = none) →
      runtimeEvaluationValid e = false) := by
  obtain ⟨id, expr, ts, result, error, co, dur, state⟩ := e
  cases state <;> cases result <;> cases error <;>
    simp [statefulRuntimeEvaluationValid, runtimeEvaluationValid]

/-- Witness for C7 at a concrete valid `Completed` record. -/
theorem runtimeEvaluation_result_error_invariant_witness :
    (⟨"eval_1", "1+1", 5, some 2, none, [], 3, .Completed⟩
        : StatefulRuntimeEvaluation Nat).result.isSome = true ∧
      (⟨"eval_1", "1+1", 5, some 2, none, [], 3, .Completed⟩
        : StatefulRuntimeEvaluation Nat).error = none :=
  ((runtimeEvaluation_result_error_invariant
      (⟨"eval_1", "1+1", 5, some 2, none, [], 3, .Completed⟩
        : StatefulRuntimeEvaluation Nat)).1 (by decide)).1 rfl

/-! ## Claim C4 -/

/-- C4 as stated (exactly 3 attempts, waits `[D, 2D]`) is false at
`D = 1000`: the run makes 4 attempts with waits `[1000, 2000, 4000]`. -/
theorem connect_retry_counterexample :
    ¬((failingConnect 1000 3 (fun _ => "ECONNREFUSED") 0).1 = 3 ∧
      (failingConnect 1000 3 (fun _ => "ECONNREFUSED") 0).2.1 = [1000, 2000]) := by
  have h : (failingConnect 1000 3 (fun _ => "ECONNREFUSED") 0).1 = 4 ∧
      (failingConnect 1000 3 (fun _ => "ECONNREFUSED") 0).2.1 = [1000, 2000, 4000] := by
    constructor <;> simp [failingConnect]
  intro hc
  exact absurd (h.1.symm.trans hc.1) (by decide)

/-- **C4 (amended)**: with `maxReconnectAttempts = 3` and base delay `D`,
a permanently failing endpoint sees exactly 4 connection attempts (the
initial call plus 3 retries), with strictly increasing geometric
(ratio 2) inter-attempt waits `D, 2D, 4D`, and then a terminal error
whose message cites the 3 configured retry attempts and the message of
the last underlying failure. -/
theorem connect_retry_amended (D : Nat) (errOf : Nat → String) :
    failingConnect D 3 errOf 0
      = (4, [D, 2 * D, 4 * D],
          "Failed to connect to Chrome DevTools after 3 attempts: " ++ errOf 3) ∧
    (1 ≤ D → D < 2 * D ∧ 2 * D < 4 * D) := by
  constructor
  · have h : ∀ k, D * 2 ^ k = 2 ^ k * D := fun k => Nat.mul_comm _ _
    simp [failingConnect]
    constructor
    · omega
    · constructor <;> ring
  · intro h
    omega

/-- Witness for C4 (amended) at `D = 1000`. -/
theorem connect_retry_amended_witness :
    failingConnect 1000 3 (fun _ => "ECONNREFUSED") 0
      = (4, [1000, 2000, 4000],
          "Failed to connect to Chrome DevTools after 3 attempts: ECONNREFUSED") ∧
    (1000 < 2000 ∧ 2000 < 4000) := by
  have h := connect_retry_amended 1000 (fun _ => "ECONNREFUSED")
  refine ⟨?_, h.2 (by decide)⟩
  have h1 := h.1
  norm_num at h1 ⊢
  exact h1


/-! ## Claim C6 -/

theorem isLocalhost5173_attachable_localhost {t : BrowserTarget}
    (h5 : isLocalhost5173Target t = true) (hc : t.canAttach = true) :
    isLocalhostAttachableTarget t = true := by
  unfold isLocalhost5173Target at h5
  unfold isLocalhostAttachableTarget
  cases hp : parseURL t.url with
  | none => rw [hp] at h5; exact absurd h5 (by simp)
  | some u =>
    rw [hp] at h5
    simp only [Bool.and_eq_true] at h5
    simp [h5.1, hc]

theorem isLocalhostAttachable_canAttach {t : BrowserTarget}
    (h : isLocalhostAttachableTarget t = true) : t.canAttach = true := by
  unfold isLocalhostAttachableTarget at h
  cases hp : parseURL t.url with
  | none => rw [hp] at h; exact absurd h (by simp)
  | some u =>
    rw [hp] at h
    simp only [Bool.and_eq_true] at h
    exact h.2

/-- **C6**: `selectPriorityTarget` returns an attachable target that is
`localhost:5173` whenever such a target exists, otherwise an attachable
`localhost` target whenever one exists, otherwise any attachable target,
and `none` exactly when no target is attachable; including the claim's
four-target scenario. -/
theorem selectPriorityTarget_priority (targets : List BrowserTarget) :
    (∀ t, selectPriorityTarget targets = some t →
      t ∈ targets ∧ t.canAttach = true ∧
      ((∃ u ∈ targets, isLocalhost5173Target u = true ∧ u.canAttach = true) →
        isLocalhost5173Target t = true) ∧
      ((∃ u ∈ targets, isLocalhostAttachableTarget u = true) →
        isLocalhostAttachableTarget t = true)) ∧
    (selectPriorityTarget targets = none ↔ ∀ t ∈ targets, t.canAttach = false) ∧
    (selectPriorityTarget
        [⟨"A", "http://example.com/", "", "page", false, true, 1⟩,
         ⟨"B", "http://localhost:3000/", "", "page", false, true, 1⟩,
         ⟨"C", "http://localhost:5173/", "", "page", false, true, 1⟩,
         ⟨"D", "http://localhost:5173/", "", "page", false, false, 1⟩]
      = some ⟨"C", "http://localhost:5173/", "", "page", false, true, 1⟩) ∧
    (selectPriorityTarget
        [⟨"A", "http://example.com/", "", "page", false, true, 1⟩,
         ⟨"B", "http://localhost:3000/", "", "page", false, true, 1⟩,
         ⟨"D", "http://localhost:5173/", "", "page", false, false, 1⟩]
      = some ⟨"B", "http://localhost:3000/", "", "page", false, true, 1⟩) ∧
    (selectPriorityTarget
        [⟨"A", "http://example.com/", "", "page", false, true, 1⟩,
         ⟨"D", "http://localhost:5173/", "", "page", false, false, 1⟩]
      = some ⟨"A", "http://example.com/", "", "page", false, true, 1⟩) ∧
    (selectPriorityTarget
        [⟨"A", "http://example.com/", "", "page", false, false, 1⟩,
         ⟨"B", "http://localhost:3000/", "", "page", false, false, 1⟩,
         ⟨"C", "http://localhost:5173/", "", "page", false, false, 1⟩,
         ⟨"D", "http://localhost:5173/", "", "page", false, false, 1⟩]
      = none) := by
  refine ⟨?_, ?_, by decide, by decide, by decide, by decide⟩
  · intro t ht
    unfold selectPriorityTarget at ht
    cases hf1 : targets.filter (fun u => isLocalhost5173Target u && u.canAttach) with
    | cons a l =>
      rw [hf1] at ht
      simp only [List.head?_cons, Option.some.injEq] at ht
      subst ht
      have hmem := List.mem_filter.mp (hf1 ▸ List.mem_cons_self a l)
      have hprops := hmem.2
      simp only [Bool.and_eq_true] at hprops
      exact ⟨hmem.1, hprops.2, fun _ => hprops.1,
        fun _ => isLocalhost5173_attachable_localhost hprops.1 hprops.2⟩
    | nil =>
      rw [hf1] at ht
      simp only [List.head?_nil] at ht
      have hnone1 : ∀ u ∈ targets, ¬(isLocalhost5173Target u = true ∧ u.canAttach = true) := by
        intro u hu hcontra
        have := List.filter_eq_nil.mp hf1 u hu
        simp only [Bool.and_eq_true] at this
        exact this hcontra
      cases hf2 : targets.filter isLocalhostAttachableTarget with
      | cons a l =>
        rw [hf2] at ht
        simp only [List.head?_cons, Option.some.injEq] at ht
        subst ht
        have hmem := List.mem_filter.mp (hf2 ▸ List.mem_cons_self a l)
        refine ⟨hmem.1, isLocalhostAttachable_canAttach hmem.2, ?_, fun _ => hmem.2⟩
        intro ⟨u, hu, h5, hc⟩
        exact absurd ⟨h5, hc⟩ (hnone1 u hu)
      | nil =>
        rw [hf2] at ht
        simp only [List.head?_nil] at ht
        have hnone2 : ∀ u ∈ targets, ¬(isLocalhostAttachableTarget u = true) :=
          fun u hu => by simpa using List.filter_eq_nil.mp hf2 u hu
        cases hf3 : targets.filter (fun u => u.canAttach) with
        | cons a l =>
          rw [hf3] at ht
          simp only [List.head?_cons, Option.some.injEq] at ht
          subst ht
          have hmem := List.mem_filter.mp (hf3 ▸ List.mem_cons_self a l)
          refine ⟨hmem.1, hmem.2, ?_, ?_⟩
          · intro ⟨u, hu, h5, hc⟩
            exact absurd ⟨h5, hc⟩ (hnone1 u hu)
          · intro ⟨u, hu, h2⟩
            exact absurd h2 (hnone2 u hu)
        | nil =>
          rw [hf3] at ht
          simp at ht
  · constructor
    · intro hnone t htmem
      unfold selectPriorityTarget at hnone
      cases hf1 : targets.filter (fun u => isLocalhost5173Target u && u.canAttach) with
      | cons a l => rw [hf1] at hnone; simp at hnone
      | nil =>
        rw [hf1] at hnone
        simp only [List.head?_nil] at hnone
        cases hf2 : targets.filter isLocalhostAttachableTarget with
        | cons a l => rw [hf2] at hnone; simp at hnone
        | nil =>
          rw [hf2] at hnone
          simp only [List.head?_nil] at hnone
          cases hf3 : targets.filter (fun u => u.canAttach) with
          | cons a l => rw [hf3] at hnone; simp at hnone
          | nil =>
            have := List.filter_eq_nil.mp hf3 t htmem
            simpa using this
    · intro hall
      unfold selectPriorityTarget
      have hf1 : targets.filter (fun u => isLocalhost5173Target u && u.canAttach) = [] := by
        rw [List.filter_eq_nil]
        intro u hu
        simp [hall u hu]
      have hf2 : targets.filter isLocalhostAttachableTarget = [] := by
        rw [List.filter_eq_nil]
        intro u hu
        intro hcontra
        exact absurd (isLocalhostAttachable_canAttach hcontra) (by simp [hall u hu])
      have hf3 : targets.filter (fun u => u.canAttach) = [] := by
        rw [List.filter_eq_nil]
        intro u hu
        simp [hall u hu]
      rw [hf1, hf2, hf3]
      rfl

/-- Witness for C6: in the claim's scenario an attachable
`localhost:5173` target exists and the selected target C is indeed
`localhost:5173`. -/
theorem selectPriorityTarget_priority_witness :
    isLocalhost5173Target
      (⟨"C", "http://localhost:5173/", "", "page", false, true, 1⟩ : BrowserTarget) = true := by
  have h := (selectPriorityTarget_priority
    [⟨"A", "http://example.com/", "", "page", false, true, 1⟩,
     ⟨"B", "http://localhost:3000/", "", "page", false, true, 1⟩,
     ⟨"C", "http://localhost:5173/", "", "page", false, true, 1⟩,
     ⟨"D", "http://localhost:5173/", "", "page", false, false, 1⟩]).1
    ⟨"C", "http://localhost:5173/", "", "page", false, true, 1⟩ (by decide)
  exact h.2.2.1 ⟨⟨"C", "http://localhost:5173/", "", "page", false, true, 1⟩,
    by decide, by decide, rfl⟩


/-! ## Claim C10 -/

/-- **C10**: for every expression the denylist rejects, `handleRuntimeEval`
does not produce a failed-evaluation response: `assertExpressionSafe`
throws while the evaluation record is still `Created`, the catch
branch's `toFailed` is therefore applied to a `Created` record and
itself throws `Invalid transition: Created -> Failed`, which propagates
to the caller. -/
theorem handleRuntimeEval_unsafe_invalid_transition {V : Type} (isSafe : String → Bool)
    (t : BrowserTarget) (expression : String) (timeout startTime endTime : Nat)
    (evalId : String) (evalOutcome : Except String (CDPEvalResponse V))
    (hdenied : isSafe expression = false)
    (hexpr : expression.isEmpty = false)
    (ht1 : 100 ≤ timeout) (ht2 : timeout ≤ 30000)
    (hstart : 0 < startTime) (hid : evalId.isEmpty = false) :
    handleRuntimeEval isSafe (some t) expression timeout startTime endTime evalId evalOutcome
      = .error "Invalid transition: Created -> Failed" := by
  have hd1 : ¬(timeout < 100) := by omega
  have hd2 : ¬(30000 < timeout) := by omega
  simp [handleRuntimeEval, hexpr, hd1, hd2, createRuntimeEvaluation,
    runtimeEvaluationBaseValid, hid, hstart, assertExpressionSafe, hdenied,
    StatefulRuntimeEvaluation.toFailed, RuntimeEvaluationState.str]

/-- Witness for C10 at a concrete denylisted expression. -/
theorem handleRuntimeEval_unsafe_invalid_transition_witness :
    handleRuntimeEval (V := Nat) (fun _ => false)
        (some ⟨"T", "http://localhost:5173/", "", "page", true, true, 1⟩)
        "eval(document)" 5000 10 25 "eval_10_abc" (.ok ⟨some 2, none⟩)
      = .error "Invalid transition: Created -> Failed" :=
  handleRuntimeEval_unsafe_invalid_transition _ _ _ _ _ _ _ _
    rfl rfl (by decide) (by decide) (by decide) rfl

/-! ## Claim C2 -/

theorem mem_storedIds {items : List (Option StatefulNetworkRequest)} {x : String} :
    x ∈ storedIds items ↔ ∃ a, (some a) ∈ items ∧ a.requestId = x := by
  simp only [storedIds, List.mem_map, List.mem_filterMap, id_eq]
  constructor
  · rintro ⟨a, ⟨o, ho, rfl⟩, rfl⟩
    exact ⟨a, ho, rfl⟩
  · rintro ⟨a, ha, rfl⟩
    exact ⟨a, ⟨some a, ha, rfl⟩, rfl⟩

theorem replaceFirstList_filter_length {α : Type} (p : α → Bool) (x : α)
    (l : List (Option α)) :
    (((CircularBuffer.replaceFirstList p x l).1.filter fun o => o.isSome).length)
      = ((l.filter fun o => o.isSome).length) := by
  induction l with
  | nil => rfl
  | cons o rest ih =>
    cases o with
    | none => simp [CircularBuffer.replaceFirstList, ih]
    | some a =>
      by_cases hp : p a
      · simp [CircularBuffer.replaceFirstList, hp]
      · simp [CircularBuffer.replaceFirstList, hp, ih]

theorem replaceFirstList_false {α : Type} (p : α → Bool) (x : α) (l : List (Option α))
    (h : (CircularBuffer.replaceFirstList p x l).2 = false) :
    (CircularBuffer.replaceFirstList p x l).1 = l ∧
      ∀ a, (some a) ∈ l → p a = false := by
  induction l with
  | nil => exact ⟨rfl, by intro a ha; simp at ha⟩
  | cons o rest ih =>
    cases o with
    | none =>
      simp only [CircularBuffer.replaceFirstList] at h ⊢
      obtain ⟨h1, h2⟩ := ih h
      refine ⟨by rw [h1], ?_⟩
      intro a ha
      rcases List.mem_cons.mp ha with hc | hc
      · exact absurd hc (by simp)
      · exact h2 a hc
    | some b =>
      by_cases hp : p b
      · simp [CircularBuffer.replaceFirstList, hp] at h
      · simp only [CircularBuffer.replaceFirstList, hp, if_neg, Bool.false_eq_true,
          if_false] at h ⊢
        obtain ⟨h1, h2⟩ := ih h
        refine ⟨by rw [h1], ?_⟩
        intro a ha
        rcases List.mem_cons.mp ha with hc | hc
        · cases Option.some.injEq .. ▸ hc
          simpa using hp
        · exact h2 a hc

theorem replaceFirstList_true_iff {α : Type} (p : α → Bool) (x : α) (l : List (Option α)) :
    (CircularBuffer.replaceFirstList p x l).2 = true ↔
      ∃ a, (some a) ∈ l ∧ p a = true := by
  induction l with
  | nil => simp [CircularBuffer.replaceFirstList]
  | cons o rest ih =>
    cases o with
    | none =>
      simp only [CircularBuffer.replaceFirstList]
      rw [ih]
      constructor
      · rintro ⟨a, ha, hpa⟩
        exact ⟨a, List.mem_cons_of_mem _ ha, hpa⟩
      · rintro ⟨a, ha, hpa⟩
        rcases List.mem_cons.mp ha with hc | hc
        · exact absurd hc (by simp)
        · exact ⟨a, hc, hpa⟩
    | some b =>
      by_cases hp : p b
      · simp only [CircularBuffer.replaceFirstList, hp, if_pos]
        exact iff_of_true trivial ⟨b, List.mem_cons_self .., hp⟩
      · simp only [CircularBuffer.replaceFirstList, hp, Bool.false_eq_true, if_false]
        rw [ih]
        constructor
        · rintro ⟨a, ha, hpa⟩
          exact ⟨a, List.mem_cons_of_mem _ ha, hpa⟩
        · rintro ⟨a, ha, hpa⟩
          rcases List.mem_cons.mp ha with hc | hc
          · rw [Option.some.injEq] at hc
            subst hc
            exact absurd hpa (by simpa using hp)
          · exact ⟨a, hc, hpa⟩

theorem storedIds_replaceFirst_matching (r : StatefulNetworkRequest)
    (l : List (Option StatefulNetworkRequest)) :
    storedIds (CircularBuffer.replaceFirstList
        (fun q => q.requestId == r.requestId) r l).1
      = storedIds l := by
  induction l with
  | nil => rfl
  | cons o rest ih =>
    cases o with
    | none => simpa [CircularBuffer.replaceFirstList, storedIds] using ih
    | some a =>
      by_cases hp : (a.requestId == r.requestId) = true
      · have heq : a.requestId = r.requestId := eq_of_beq hp
        simp [CircularBuffer.replaceFirstList, hp, storedIds, heq]
      · simpa [CircularBuffer.replaceFirstList, hp, storedIds] using ih

theorem storedIds_mem_set (l : List (Option StatefulNetworkRequest))
    (r : StatefulNetworkRequest) :
    ∀ (n : Nat) (x : String), x ∈ storedIds (l.set n (some r)) →
      x ∈ storedIds l ∨ x = r.requestId := by
  induction l with
  | nil => intro n x hx; simp [List.set] at hx; exact absurd hx (by simp [storedIds])
  | cons o rest ih =>
    intro n x hx
    cases n with
    | zero =>
      simp only [List.set, storedIds, List.filterMap_cons, id_eq, List.map_cons,
        List.mem_cons] at hx
      rcases hx with hx | hx
      · exact Or.inr hx
      · cases o with
        | none => exact Or.inl (by simpa [storedIds] using hx)
        | some b =>
          exact Or.inl (by
            simp only [storedIds, List.filterMap_cons, id_eq, List.map_cons, List.mem_cons]
            exact Or.inr (by simpa [storedIds] using hx))
    | succ n =>
      cases o with
      | none =>
        have := ih n x (by simpa [List.set, storedIds] using hx)
        simpa [storedIds] using this
      | some b =>
        simp only [List.set, storedIds, List.filterMap_cons, id_eq, List.map_cons,
          List.mem_cons] at hx
        rcases hx with hx | hx
        · exact Or.inl (by simp [storedIds, hx])
        · rcases ih n x (by simpa [storedIds] using hx) with hin | hr
          · exact Or.inl (by
              simp only [storedIds, List.filterMap_cons, id_eq, List.map_cons, List.mem_cons]
              exact Or.inr (by simpa [storedIds] using hin))
          · exact Or.inr hr

theorem storedIds_nodup_tail {o : Option StatefulNetworkRequest}
    {rest : List (Option StatefulNetworkRequest)}
    (h : (storedIds (o :: rest)).Nodup) : (storedIds rest).Nodup := by
  cases o with
  | none => simpa [storedIds] using h
  | some a =>
    have := (by simpa [storedIds] using h :
      (a.requestId ∉ storedIds rest) ∧ (storedIds rest).Nodup)
    exact this.2

theorem storedIds_subset_cons {o : Option StatefulNetworkRequest}
    {rest : List (Option StatefulNetworkRequest)} {x : String}
    (h : x ∈ storedIds rest) : x ∈ storedIds (o :: rest) := by
  cases o with
  | none => simpa [storedIds] using h
  | some a =>
    simp only [storedIds, List.filterMap_cons, id_eq, List.map_cons, List.mem_cons]
    exact Or.inr (by simpa [storedIds] using h)

theorem storedIds_nodup_set (l : List (Option StatefulNetworkRequest))
    (r : StatefulNetworkRequest) :
    ∀ (n : Nat), (storedIds l).Nodup → r.requestId ∉ storedIds l →
      (storedIds (l.set n (some r))).Nodup := by
  induction l with
  | nil => intro n _ _; simp [List.set, storedIds]
  | cons o rest ih =>
    intro n hnd hfresh
    cases n with
    | zero =>
      have hnd' : (storedIds rest).Nodup := storedIds_nodup_tail hnd
      have hfresh' : r.requestId ∉ storedIds rest :=
        fun hc => hfresh (storedIds_subset_cons hc)
      have hfresh2 : ∀ x : StatefulNetworkRequest, some x ∈ rest →
          ¬x.requestId = r.requestId :=
        fun x hx he => hfresh' (mem_storedIds.mpr ⟨x, hx, he⟩)
      simpa [List.set, storedIds] using ⟨hfresh2, hnd'⟩
    | succ n =>
      cases o with
      | none =>
        have hnd' : (storedIds rest).Nodup := storedIds_nodup_tail hnd
        have hfresh' : r.requestId ∉ storedIds rest :=
          fun hc => hfresh (storedIds_subset_cons hc)
        simpa [List.set, storedIds] using ih n hnd' hfresh'
      | some b =>
        have hnd0 := (by simpa [storedIds] using hnd :
          (b.requestId ∉ storedIds rest) ∧ (storedIds rest).Nodup)
        have hfresh' : r.requestId ∉ storedIds rest :=
          fun hc => hfresh (storedIds_subset_cons hc)
        have hne : b.requestId ≠ r.requestId := by
          intro he
          exact hfresh (by
            simp only [storedIds, List.filterMap_cons, id_eq, List.map_cons, List.mem_cons]
            exact Or.inl he.symm)
        have hbnot : b.requestId ∉ storedIds (rest.set n (some r)) := by
          intro hc
          rcases storedIds_mem_set rest r n _ hc with hin | hr
          · exact hnd0.1 hin
          · exact hne hr
        have hbnot2 : ∀ x : StatefulNetworkRequest, some x ∈ rest.set n (some r) →
            ¬x.requestId = b.requestId :=
          fun x hx he => hbnot (mem_storedIds.mpr ⟨x, hx, he⟩)
        simpa [List.set, storedIds] using ⟨hbnot2, ih n hnd0.2 hfresh'⟩

theorem storedIds_replicate (n : Nat) :
    storedIds (List.replicate n none) = [] := by
  induction n with
  | zero => rfl
  | succ k ih => simpa [List.replicate, storedIds] using ih

theorem addNetworkRequest_nodup_step (bm : BufferManager)
    (request : StatefulNetworkRequest)
    (h : (storedIds bm.networkBuffer.items).Nodup) :
    (storedIds (bm.addNetworkRequest request).networkBuffer.items).Nodup := by
  unfold BufferManager.addNetworkRequest CircularBuffer.replaceFirst
  by_cases hrep : (CircularBuffer.replaceFirstList
      (fun req => req.requestId == request.requestId) request bm.networkBuffer.items).2 = true
  · simp only [hrep, if_pos]
    rw [storedIds_replaceFirst_matching]
    exact h
  · rw [Bool.not_eq_true] at hrep
    simp only [hrep, Bool.false_eq_true, if_false, CircularBuffer.add]
    obtain ⟨h1, h2⟩ := replaceFirstList_false _ _ _ hrep
    rw [h1]
    have hfresh : request.requestId ∉ storedIds bm.networkBuffer.items := by
      intro hc
      obtain ⟨a, ha, haid⟩ := mem_storedIds.mp hc
      have := h2 a ha
      rw [haid] at this
      simp at this
    exact storedIds_nodup_set _ _ _ h hfresh

theorem addNetworkRequest_nodup_fold (requests : List StatefulNetworkRequest) :
    ∀ bm : BufferManager, (storedIds bm.networkBuffer.items).Nodup →
      (storedIds (requests.foldl BufferManager.addNetworkRequest bm).networkBuffer.items).Nodup := by
  induction requests with
  | nil => intro bm h; exact h
  | cons r rs ih =>
    intro bm h
    exact ih _ (addNetworkRequest_nodup_step bm r h)

/-- **C2**: after any sequence of `addNetworkRequest` calls the network
buffer holds at most one stored record per requestId; a successful
`replaceFirst` never changes `size()`; and `addNetworkRequest` appends
via `add` exactly when no record with the request's id is stored,
replacing in place (size unchanged) otherwise. -/
theorem addNetworkRequest_unique_requestIds (config : BufferConfig)
    (requests : List StatefulNetworkRequest) :
    ((storedIds ((requests.foldl BufferManager.addNetworkRequest
        (BufferManager.mkManager config)).networkBuffer.items)).Nodup) ∧
    (∀ (b : CircularBuffer StatefulNetworkRequest) (p : StatefulNetworkRequest → Bool)
        (x : StatefulNetworkRequest),
      (b.replaceFirst p x).2 = true → (b.replaceFirst p x).1.size = b.size) ∧
    (∀ (bm : BufferManager) (request : StatefulNetworkRequest),
      request.requestId ∉ storedIds bm.networkBuffer.items →
        (bm.addNetworkRequest request).networkBuffer = bm.networkBuffer.add request) ∧
    (∀ (bm : BufferManager) (request : StatefulNetworkRequest),
      request.requestId ∈ storedIds bm.networkBuffer.items →
        (bm.addNetworkRequest request).networkBuffer
          = (bm.networkBuffer.replaceFirst
              (fun req => req.requestId == request.requestId) request).1 ∧
        (bm.addNetworkRequest request).networkBuffer.size = bm.networkBuffer.size) := by
  refine ⟨?_, ?_, ?_, ?_⟩
  · exact addNetworkRequest_nodup_fold requests _ (by
      simp [BufferManager.mkManager, CircularBuffer.mkBuffer, storedIds_replicate])
  · intro b p x _
    unfold CircularBuffer.replaceFirst CircularBuffer.size
    exact replaceFirstList_filter_length p x b.items
  · intro bm request hnot
    have hrep : (CircularBuffer.replaceFirstList
        (fun req => req.requestId == request.requestId) request bm.networkBuffer.items).2
          = false := by
      rw [Bool.eq_false_iff]
      intro hc
      obtain ⟨a, ha, hpa⟩ := (replaceFirstList_true_iff _ _ _).mp hc
      exact hnot (mem_storedIds.mpr ⟨a, ha, eq_of_beq hpa⟩)
    unfold BufferManager.addNetworkRequest CircularBuffer.replaceFirst
    simp only [hrep, Bool.false_eq_true, if_false]
    rw [(replaceFirstList_false _ _ _ hrep).1]
  · intro bm request hin
    obtain ⟨a, ha, haid⟩ := mem_storedIds.mp hin
    have hrep : (CircularBuffer.replaceFirstList
        (fun req => req.requestId == request.requestId) request bm.networkBuffer.items).2
          = true :=
      (replaceFirstList_true_iff _ _ _).mpr ⟨a, ha, by rw [haid]; simp⟩
    unfold BufferManager.addNetworkRequest CircularBuffer.replaceFirst
    simp only [hrep, if_pos]
    refine ⟨trivial, ?_⟩
    unfold CircularBuffer.size
    exact replaceFirstList_filter_length _ _ bm.networkBuffer.items

/-- Witness for C2: a concrete update by an existing requestId replaces
in place and leaves the size unchanged. -/
theorem addNetworkRequest_unique_requestIds_witness :
    (((BufferManager.mkManager ⟨2, 2⟩).addNetworkRequest
        ⟨"a", "http://localhost:5173/", "GET", none, "http://localhost:5173/", 1,
          none, [], none, false, .Created⟩).addNetworkRequest
        ⟨"a", "http://localhost:5173/", "GET", some 200, "http://localhost:5173/", 1,
          some 5, [], none, false, .Updated⟩).networkBuffer.size
      = ((BufferManager.mkManager ⟨2, 2⟩).addNetworkRequest
        ⟨"a", "http://localhost:5173/", "GET", none, "http://localhost:5173/", 1,
          none, [], none, false, .Created⟩).networkBuffer.size :=
  ((addNetworkRequest_unique_requestIds ⟨2, 2⟩ []).2.2.2
    ((BufferManager.mkManager ⟨2, 2⟩).addNetworkRequest
      ⟨"a", "http://localhost:5173/", "GET", none, "http://localhost:5173/", 1,
        none, [], none, false, .Created⟩)
    ⟨"a", "http://localhost:5173/", "GET", some 200, "http://localhost:5173/", 1,
      some 5, [], none, false, .Updated⟩
    (by decide)).2

/-! ## Claim C8 -/

/-- **C8** is violated by the event dispatcher: after
requestWillBeSent/responseReceived/requestFinished for `r1` the stored
record is `Completed`, yet a further `responseReceived` for the same
`r1` rewrites it to `Updated` — an edge the model's own
`VALID_TRANSITIONS` table forbids. (The handlers look records up through
`queryNetworkRequests()`, which strips `state`, and rebuild them with
`createNetworkRequest`, which resets the state to `Created`.) -/
theorem network_terminal_state_overwritten :
    (storedStateOf
        (([CDPNetworkEvent.requestWillBeSent "r1" "http://localhost:5173/api" "GET" [],
           CDPNetworkEvent.responseReceived "r1" 200 [],
           CDPNetworkEvent.requestFinished "r1" true]).foldl
          (handleNetworkEvent 100) (BufferManager.mkManager ⟨3, 3⟩)) "r1"
      = some .Completed) ∧
    (storedStateOf
        (handleNetworkEvent 200
          (([CDPNetworkEvent.requestWillBeSent "r1" "http://localhost:5173/api" "GET" [],
             CDPNetworkEvent.responseReceived "r1" 200 [],
             CDPNetworkEvent.requestFinished "r1" true]).foldl
            (handleNetworkEvent 100) (BufferManager.mkManager ⟨3, 3⟩))
          (CDPNetworkEvent.responseReceived "r1" 404 [])) "r1"
      = some .Updated) ∧
    isValidNetworkTransition .Completed .Updated = false := by
  refine ⟨by decide, by decide, by decide⟩

/-! ## Claim C3 (pipeline lemmas) -/

theorem applyGuard_eq_filter {α β : Type} (opt : Option β) (emptyTest : β → Bool)
    (p : β → α → Bool) (entries : List α) :
    applyGuard opt emptyTest p entries = entries.filter (guardPred opt emptyTest p) := by
  cases opt with
  | none =>
    have hg : guardPred (none : Option β) emptyTest p = fun _ => true := rfl
    rw [hg, List.filter_true]
    rfl
  | some v =>
    show (if emptyTest v then entries else entries.filter (p v))
      = entries.filter (guardPred (some v) emptyTest p)
    by_cases h : emptyTest v
    · have hg : guardPred (some v) emptyTest p = fun _ => true := by
        funext e
        simp [guardPred, h]
      rw [if_pos h, hg, List.filter_true]
    · have hg : guardPred (some v) emptyTest p = p v := by
        funext e
        simp [guardPred, h]
      rw [if_neg h, hg]

theorem queryConsoleEntries_pipeline (bm : BufferManager) (options : QueryOptions) :
    bm.queryConsoleEntries options
      = ((applyCountLimit options.count
            ((bm.consoleBuffer.getAll.filter (consoleQueryPred options)).insertionSort
              BufferManager.consoleTsLe)).map stripConsoleState,
         (bm.consoleBuffer.getAll.filter (consoleQueryPred options)).length) := by
  simp only [BufferManager.queryConsoleEntries]
  rw [applyGuard_eq_filter, applyGuard_eq_filter, List.filter_filter, Prod.mk.injEq]
  constructor
  · rfl
  · exact ((List.filter (consoleQueryPred options)
      bm.consoleBuffer.getAll).perm_insertionSort BufferManager.consoleTsLe).length_eq

theorem queryNetworkRequests_pipeline (bm : BufferManager) (options : QueryOptions) :
    bm.queryNetworkRequests options
      = ((applyCountLimit options.count
            ((bm.networkBuffer.getAll.filter (networkQueryPred options)).insertionSort
              BufferManager.networkTsLe)).map stripNetworkState,
         (bm.networkBuffer.getAll.filter (networkQueryPred options)).length) := by
  simp only [BufferManager.queryNetworkRequests]
  rw [applyGuard_eq_filter, applyGuard_eq_filter, List.filter_filter,
    applyGuard_eq_filter, List.filter_filter, applyGuard_eq_filter, List.filter_filter,
    Prod.mk.injEq]
  constructor
  · rfl
  · exact ((List.filter (networkQueryPred options)
      bm.networkBuffer.getAll).perm_insertionSort BufferManager.networkTsLe).length_eq

theorem sorted_applyCountLimit {α : Type} (r : α → α → Prop) (count : Option Int)
    (l : List α) (h : List.Sorted r l) : List.Sorted r (applyCountLimit count l) := by
  unfold applyCountLimit
  cases count with
  | none => exact h
  | some c =>
    show List.Sorted r (if 0 < c then l.drop (l.length - c.toNat) else l)
    by_cases hc : 0 < c
    · rw [if_pos hc]
      exact h.sublist (List.drop_sublist _ _)
    · rw [if_neg hc]
      exact h


/-- C3 as stated is false on the code: a `level` filter given as the
empty string is truthiness-skipped rather than applied conjunctively.
The query returns the lone stored entry (level `"info"`) with
`totalCount = 1`, though no stored entry satisfies the given level
filter. -/
theorem queryConsole_empty_level_filter_skipped :
    ((BufferManager.mkManager ⟨5, 5⟩).addConsoleEntry
        ⟨"info", 10, "i1", "unknown", .Buffered⟩).queryConsoleEntries
        ⟨none, none, some "", none, none, none⟩
      = ([⟨"info", 10, "i1", "unknown"⟩], 1) ∧
    (((BufferManager.mkManager ⟨5, 5⟩).addConsoleEntry
        ⟨"info", 10, "i1", "unknown", .Buffered⟩).consoleBuffer.getAll.filter
        fun e => e.level == "").length = 0 := by
  exact ⟨by decide, by decide⟩

/-- **C3 (amended)**: each query applies its *truthy* filters
conjunctively (a filter given as a JavaScript-falsy value — empty
string or 0 — is skipped), sorts the matches ascending by timestamp,
reports `totalCount` as the pre-limit match count, and a positive
`count` keeps exactly the last `count` items of the sorted filtered
sequence (`slice(-count)`); the claim's literal examples hold as
stated. -/
theorem query_filters_sort_total_and_limit (bm : BufferManager) (options : QueryOptions) :
    ((bm.queryConsoleEntries options).2
        = (bm.consoleBuffer.getAll.filter (consoleQueryPred options)).length) ∧
    ((bm.queryConsoleEntries options).1
        = (applyCountLimit options.count
            ((bm.consoleBuffer.getAll.filter (consoleQueryPred options)).insertionSort
              BufferManager.consoleTsLe)).map stripConsoleState) ∧
    List.Sorted (fun a b : ConsoleEntry => a.timestamp ≤ b.timestamp)
      (bm.queryConsoleEntries options).1 ∧
    ((bm.queryNetworkRequests options).2
        = (bm.networkBuffer.getAll.filter (networkQueryPred options)).length) ∧
    ((bm.queryNetworkRequests options).1
        = (applyCountLimit options.count
            ((bm.networkBuffer.getAll.filter (networkQueryPred options)).insertionSort
              BufferManager.networkTsLe)).map stripNetworkState) ∧
    List.Sorted (fun a b : NetworkRequest => a.timestamp ≤ b.timestamp)
      (bm.queryNetworkRequests options).1 ∧
    ((([(⟨"info", 10, "i1", "unknown", .Buffered⟩ : StatefulConsoleEntry),
        ⟨"error", 20, "e1", "unknown", .Buffered⟩,
        ⟨"error", 30, "e2", "unknown", .Buffered⟩,
        ⟨"log", 40, "l1", "unknown", .Buffered⟩,
        ⟨"error", 50, "e3", "unknown", .Buffered⟩].foldl BufferManager.addConsoleEntry
          (BufferManager.mkManager ⟨10, 10⟩)).queryConsoleEntries
          ⟨none, none, some "error", none, none, none⟩).1.map fun e => e.timestamp)
      = [20, 30, 50] ∧
    ((([(⟨"info", 10, "i1", "unknown", .Buffered⟩ : StatefulConsoleEntry),
        ⟨"error", 20, "e1", "unknown", .Buffered⟩,
        ⟨"error", 30, "e2", "unknown", .Buffered⟩,
        ⟨"log", 40, "l1", "unknown", .Buffered⟩,
        ⟨"error", 50, "e3", "unknown", .Buffered⟩].foldl BufferManager.addConsoleEntry
          (BufferManager.mkManager ⟨10, 10⟩)).queryConsoleEntries
          ⟨none, some 30, none, none, none, none⟩).1.map fun e => e.timestamp)
      = [30, 40, 50] := by
  have hc := queryConsoleEntries_pipeline bm options
  have hn := queryNetworkRequests_pipeline bm options
  refine ⟨?_, ?_, ?_, ?_, ?_, ?_, by decide, by decide⟩
  · rw [hc]
  · rw [hc]
  · rw [hc]
    have hps : List.Sorted BufferManager.consoleTsLe
        ((bm.consoleBuffer.getAll.filter (consoleQueryPred options)).insertionSort
          BufferManager.consoleTsLe) := List.sorted_insertionSort _ _
    have hlim := sorted_applyCountLimit BufferManager.consoleTsLe options.count _ hps
    exact List.Pairwise.map _ (fun a b hab => hab) hlim
  · rw [hn]
  · rw [hn]
  · rw [hn]
    have hps : List.Sorted BufferManager.networkTsLe
        ((bm.networkBuffer.getAll.filter (networkQueryPred options)).insertionSort
          BufferManager.networkTsLe) := List.sorted_insertionSort _ _
    have hlim := sorted_applyCountLimit BufferManager.networkTsLe options.count _ hps
    exact List.Pairwise.map _ (fun a b hab => hab) hlim

end CdpMcp
